import Mathlib

/-!
Shallow embedding of the feathers-arangodb `DbService` (src/index.ts):
the pagination injector, the key mapper (`fixKeySend` / `fixKeyReturn`),
the result normalizer (`_returnMap`) and the CRUD entry points `find`,
`get` and `remove` that the verified properties talk about.

JavaScript records are modelled as association lists of string keys and
JSON-like values; JS truthiness (`0`, `""`, `null`, `undefined` falsy) is
modelled explicitly where the source relies on it (`||` fallbacks).
-/

/-- A JSON-like field value, including JS `undefined`. -/
inductive JValue where
  | str (s : String)
  | num (n : Int)
  | bool (b : Bool)
  | null
  | undef
deriving DecidableEq, Repr

/-- JS truthiness of a value: `0`, `""`, `false`, `null`, `undefined` are falsy. -/
def JValue.truthy : JValue → Bool
  | .str s => !(s == "")
  | .num n => !(n == 0)
  | .bool b => b
  | .null => false
  | .undef => false

/-- A document record: a flat mapping of string field names to values. -/
abbrev Doc := List (String × JValue)

/-- lodash `omit`: drop every entry whose key is listed. -/
def omitKeys (ks : List String) (d : Doc) : Doc :=
  d.filter (fun kv => !(ks.contains kv.1))

/-- JS `a || b` on an optional integer: absent and `0` are falsy. -/
def jsOrI (a : Option Int) (b : Int) : Int :=
  match a with
  | some x => if x == 0 then b else x
  | none => b

/-- The pagination policy `{max?, default?}` of the service. -/
structure Paginate where
  max : Option Int
  default : Option Int
deriving DecidableEq, Repr

/-- lodash `_isEmpty` on the policy object: no configured field. -/
def Paginate.isEmpty (p : Paginate) : Bool :=
  p.max.isNone && p.default.isNone

/-- The `paginate` member of the params of a call: absent, a policy object, or literal `false`. -/
inductive PaginateParam where
  | absent
  | someP (p : Paginate)
  | off
deriving DecidableEq, Repr

/-- The reserved `$limit` / `$skip` directives of a query object. -/
structure Query where
  limit : Option Int
  skip : Option Int
deriving DecidableEq, Repr

/-- The params object of a call: optional query and optional pagination override. -/
structure Params where
  query : Option Query
  paginate : PaginateParam
deriving DecidableEq, Repr

/-- Service configuration relevant to key mapping: the external identifier
field name (`options.id`, default `"_id"`) and `options.expandData`. -/
structure Cfg where
  idField : String
  expandData : Bool
deriving DecidableEq, Repr

/-- A database-side failure: an ArangoError with its `errorNum`, or any other error. -/
inductive DbError where
  | arango (errorNum : Int)
  | other (code : Nat)
deriving DecidableEq, Repr

/-- Outcome of executing a built query: rows plus the `fullCount` statistic, or a failure. -/
abbrev ExecResult := Except DbError (List Doc × Nat)

/-- The shape of a normalized result: bare list, unwrapped single element,
JS `undefined` (empty result collapsed), or the `{total, data}` pair. -/
inductive ResultShape where
  | list (rs : List Doc)
  | single (r : Doc)
  | undef
  | paged (total : Nat) (data : List Doc)
deriving DecidableEq, Repr

/-- Result of `_returnMap`: a domain Not-Found failure, a propagated database
error, or a normalized value. -/
inductive MapResult where
  | notFound (m : String)
  | dbError (e : DbError)
  | ok (v : ResultShape)
deriving DecidableEq, Repr

namespace DbService

/-- `_injectPagination` (src/index.ts lines 231-246): no-op when the service
policy is empty or the call sets `paginate: false`; otherwise resolves the
effective limit as `parseInt($limit)` falling back to `default || max || 0`,
clamped by `Math.min` against `max || default || limit`. -/
def _injectPagination (svc : Paginate) (params : Params) : Params :=
  if svc.isEmpty || params.paginate == .off then params
  else
    let pag : Paginate := match params.paginate with
      | .someP p => p
      | _ => svc
    let q : Query := params.query.getD ⟨none, none⟩
    let limit0 : Int := match q.limit with
      | some l => l
      | none => jsOrI pag.default (jsOrI pag.max 0)
    let lim : Int := min limit0 (jsOrI pag.max (jsOrI pag.default limit0))
    ⟨some ⟨some lim, q.skip⟩, params.paginate⟩

/-- One record of `fixKeySend` (src/index.ts lines 253-256): take the value at
the external identifier field — or the freshly generated uuid when absent or
falsy — as `_key`, and omit `_id`, `_rev`, `_key` from the body. -/
def fixKeySendItem (cfg : Cfg) (fresh : String) (item : Doc) : Doc :=
  let idv : JValue := match item.lookup cfg.idField with
    | some v => if v.truthy then v else .str fresh
    | none => .str fresh
  ("_key", idv) :: omitKeys ["_id", "_rev", "_key"] item

/-- `fixKeySend` (src/index.ts lines 248-257): wrap a single record into an
array, return an empty array unchanged, otherwise map each record. The uuid
supply is passed explicitly, indexed by position in the batch. -/
def fixKeySend (cfg : Cfg) (fresh : Nat → String) (data : Doc ⊕ List Doc) : List Doc :=
  let aData : List Doc := match data with
    | .inl d => [d]
    | .inr ds => ds
  if aData.length < 1 then aData
  else aData.enum.map (fun p => fixKeySendItem cfg (fresh p.1) p.2)

/-- `fixKeyReturn` (src/index.ts lines 259-267): set the external identifier
field from `_key`, then omit the identifier field and `_key` — and, unless
`expandData`, also `_id` and `_rev` — from the body. -/
def fixKeyReturn (cfg : Cfg) (item : Doc) : Doc :=
  let removeKeys : List String :=
    [cfg.idField, "_key"] ++ (if cfg.expandData then [] else ["_id", "_rev"])
  (cfg.idField, (item.lookup "_key").getD .undef) :: omitKeys removeKeys item

/-- JS truthiness of the optional `errorMessage` string: absent and the empty
string are falsy, as in the source guards `... && errorMessage`. -/
def msgTruthy (m : Option String) : Bool :=
  match m with
  | some s => !(s == "")
  | none => false

/-- `_returnMap` (src/index.ts lines 269-303): translate an ArangoError 1202
into Not-Found when a truthy (non-empty) message was supplied, propagate any
other failure, map rows through `fixKeyReturn`, raise Not-Found on an empty
mapped result when a truthy message was supplied, and shape the result (paged
pair, bare list, or collapsed first element). -/
def _returnMap (cfg : Cfg) (exec : ExecResult) (errorMessage : Option String)
    (removeArray : Bool) (paging : Bool) : MapResult :=
  match exec with
  | .error e =>
      match e with
      | .arango n =>
          if n == 1202 && msgTruthy errorMessage then .notFound (errorMessage.getD "")
          else .dbError (.arango n)
      | .other c => .dbError (.other c)
  | .ok (rows, fullCount) =>
      let result : List Doc := rows.map (fixKeyReturn cfg)
      if result.length == 0 && msgTruthy errorMessage then
        .notFound (errorMessage.getD "")
      else if paging then
        .ok (.paged fullCount result)
      else if decide (result.length > 1) || !removeArray then
        .ok (.list result)
      else
        match result with
        | [] => .ok .undef
        | r :: _ => .ok (.single r)

end DbService

/-- The single-quote character, used by the not-found message of the source. -/
def quoteChar : String := String.singleton (Char.ofNat 39)

/-- The not-found message built by `get` and `_replaceOrPatch`:
`No record found for id <id>` with the id single-quoted. -/
def noRecordMsg (id : String) : String :=
  "No record found for id " ++ quoteChar ++ id ++ quoteChar

/-- Modelled from the spec: the `QueryBuilder` of the repository (src/queryBuilder.ts,
not present under src/) together with the query execution of the database. For
`get`, the built query keeps exactly the documents whose internal `_key`
equals the requested id, with extra params filters taken as empty. -/
def runGetQuery (docs : List Doc) (id : String) : ExecResult :=
  let matched := docs.filter (fun d => d.lookup "_key" == some (.str id))
  .ok (matched, matched.length)

namespace DbService

/-- `get` (src/index.ts lines 340-353): build the `_key == id` query, execute,
and normalize with the not-found message referencing the id. -/
def get (cfg : Cfg) (docs : List Doc) (id : String) : MapResult :=
  _returnMap cfg (runGetQuery docs id) (some (noRecordMsg id)) true false

end DbService

/-- Result of a `find` call: the pagination envelope `{total, limit, skip, data}`
when the service policy is configured, otherwise the plain normalized result. -/
inductive FindOutcome where
  | envelope (total : Nat) (limit : Int) (skip : Int) (data : List Doc)
  | plain (r : MapResult)
deriving DecidableEq, Repr

/-- Modelled from the spec: the `QueryBuilder` limit fragment (src/queryBuilder.ts,
not present under src/) plus database execution for `find`: keep the rows
matching the ambient filter, apply `LIMIT skip, limit` when a non-zero limit is
present (a zero or absent limit emits no clause), and report the `fullCount`
statistic of the filtered set. Sorting only reorders and is left as identity. -/
def findRows (pred : Doc → Bool) (docs : List Doc) (lim : Option Int) (skip : Option Int) :
    List Doc :=
  let matched := docs.filter pred
  match lim with
  | none => matched
  | some l => if l == 0 then matched else (matched.drop (skip.getD 0).toNat).take l.toNat

/-- Modelled from the spec: execution of the query built by `find` returns the
selected rows together with the `fullCount` statistic of the whole filtered
set, which ignores the limit clause. -/
def runFindQuery (pred : Doc → Bool) (docs : List Doc) (lim : Option Int) (skip : Option Int) :
    ExecResult :=
  .ok (findRows pred docs lim skip, (docs.filter pred).length)

namespace DbService

/-- `find` (src/index.ts lines 305-338): inject pagination, execute the built
query, normalize with `removeArray = false` and `paging = !_isEmpty(this._paginate)`,
and wrap into the `{total, limit, skip, data}` envelope when the service policy
is non-empty — note the envelope decision reads only the service policy, not
the per-call `paginate` override. The fallback `plain` branch of the non-empty
case is unreachable: with `paging = true` the normalizer always yields a paged
shape. -/
def find (cfg : Cfg) (svc : Paginate) (pred : Doc → Bool) (params : Params)
    (docs : List Doc) : FindOutcome :=
  let params' := _injectPagination svc params
  let q : Query := params'.query.getD ⟨none, none⟩
  let res := _returnMap cfg (runFindQuery pred docs q.limit q.skip) none false (!svc.isEmpty)
  if svc.isEmpty then .plain res
  else
    match res with
    | .ok (.paged total data) => .envelope total (jsOrI q.limit 0) (jsOrI q.skip 0) data
    | r => .plain r

end DbService

/-- The id argument of `remove`: a single id, an array of ids, or `null`. -/
abbrev IdArg := Option (String ⊕ List String)

/-- The branch condition of `remove` (src/index.ts line 441,
`id && (!Array.isArray(id) || ...)`): the list of ids used for the keyed
deletion, or `none` when the filter-based branch runs — `id` null, a falsy
single id such as the empty string, or an empty array. -/
def removeIds (idArg : IdArg) : Option (List String) :=
  match idArg with
  | some (.inl s) => if s == "" then none else some [s]
  | some (.inr ls) => if ls.length > 0 then some ls else none
  | none => none

/-- Whether the internal `_key` of a document is listed. -/
def keyMatches (ids : List String) (d : Doc) : Bool :=
  match d.lookup "_key" with
  | some (.str s) => ids.contains s
  | _ => false

/-- Modelled from the spec: execution of the keyed `REMOVE` query
(`FOR doc IN ids REMOVE doc IN coll LET removed = OLD ...`): delete the listed
documents and return the removed rows, together with the surviving collection.
Per the spec, deleting zero matches is not an error. -/
def runRemoveByIds (docs : List Doc) (ids : List String) : ExecResult × List Doc :=
  let removed := docs.filter (keyMatches ids)
  (.ok (removed, removed.length), docs.filter (fun d => !(keyMatches ids d)))

/-- Modelled from the spec: execution of the filter-based `REMOVE` query:
delete every row matching the ambient filter and return the removed rows,
together with the surviving collection. -/
def runRemoveByFilter (pred : Doc → Bool) (docs : List Doc) : ExecResult × List Doc :=
  let removed := docs.filter pred
  (.ok (removed, removed.length), docs.filter (fun d => !(pred d)))

namespace DbService

/-- `remove` (src/index.ts lines 428-467): keyed deletion when one or more ids
are supplied, filter-based deletion otherwise; the result is normalized without
a not-found message. Returns the normalized result and the surviving collection. -/
def remove (cfg : Cfg) (idArg : IdArg) (pred : Doc → Bool) (docs : List Doc) :
    MapResult × List Doc :=
  match removeIds idArg with
  | some ids =>
      let er := runRemoveByIds docs ids
      (_returnMap cfg er.1 none true false, er.2)
  | none =>
      let er := runRemoveByFilter pred docs
      (_returnMap cfg er.1 none true false, er.2)

end DbService

/-- The `$limit` present in a params object after pagination injection. -/
def effectiveLimit (svc : Paginate) (p : Params) : Option Int :=
  ((DbService._injectPagination svc p).query).bind (fun q => q.limit)

/-- The requested-or-default operand of the clamp: the requested limit when it
parses, else `default || max || 0` with JS falsy `or`. -/
def limitBase (pag : Paginate) (reqLimit : Option Int) : Int :=
  match reqLimit with
  | some l => l
  | none => jsOrI pag.default (jsOrI pag.max 0)

/-- The clamp `_injectPagination` performs, stated standalone:
`min(requested-or-default, max || default || requested-or-default)`. -/
def clampSpec (pag : Paginate) (reqLimit : Option Int) : Int :=
  min (limitBase pag reqLimit) (jsOrI pag.max (jsOrI pag.default (limitBase pag reqLimit)))

theorem jsOrI_nonneg (a : Option Int) (b : Int) (ha : ∀ x, a = some x → 0 ≤ x)
    (hb : 0 ≤ b) : 0 ≤ jsOrI a b := by
  cases a with
  | none => simpa [jsOrI] using hb
  | some x =>
    by_cases hx : x = 0
    · simp [jsOrI, hx, hb]
    · simpa [jsOrI, hx] using ha x rfl

theorem limitBase_nonneg (pag : Paginate) (L : Option Int)
    (hd : ∀ x, pag.default = some x → 0 ≤ x)
    (hm : ∀ x, pag.max = some x → 0 ≤ x)
    (hL : ∀ x, L = some x → 0 ≤ x) : 0 ≤ limitBase pag L := by
  cases L with
  | some l => exact hL l rfl
  | none => exact jsOrI_nonneg _ _ hd (jsOrI_nonneg _ _ hm le_rfl)

/-- C1: counterexample — with policy `{default: 10, max: 50}` a requested limit
of `-5` survives `_injectPagination` unchanged, so the effective limit is
negative, refuting the "never negative" conjunct of the claim. -/
theorem C1_counterexample :
    effectiveLimit ⟨some 50, some 10⟩ ⟨some ⟨some (-5), none⟩, .absent⟩ = some (-5) ∧
    (-5 : Int) < 0 := by decide

/-- C1 (amended): when the service policy is configured, the injected effective
limit equals `min(L-or-(default-or-max-or-0), max-or-default-or-that-operand)`
with JS falsy `or`; it is non-negative whenever the requested limit and the
configured policy values are non-negative; and with policy
`{default: 10, max: 50}` a requested limit of 999 yields 50 while an absent
requested limit yields 10. -/
theorem C1_effective_limit (svc : Paginate) (L sk : Option Int)
    (hne : svc.isEmpty = false)
    (hd : ∀ x, svc.default = some x → 0 ≤ x)
    (hm : ∀ x, svc.max = some x → 0 ≤ x)
    (hL : ∀ x, L = some x → 0 ≤ x) :
    effectiveLimit svc ⟨some ⟨L, sk⟩, .absent⟩ = some (clampSpec svc L) ∧
    0 ≤ clampSpec svc L ∧
    effectiveLimit ⟨some 50, some 10⟩ ⟨some ⟨some 999, none⟩, .absent⟩ = some 50 ∧
    effectiveLimit ⟨some 50, some 10⟩ ⟨some ⟨none, none⟩, .absent⟩ = some 10 := by
  refine ⟨?_, ?_, by decide, by decide⟩
  · simp [effectiveLimit, DbService._injectPagination, hne, clampSpec, limitBase]
  · exact le_min (limitBase_nonneg svc L hd hm hL)
      (jsOrI_nonneg _ _ hm (jsOrI_nonneg _ _ hd (limitBase_nonneg svc L hd hm hL)))

/-- C1 witness: the amended theorem applied at policy `{default: 10, max: 50}`
with requested limit 5. -/
theorem C1_witness :
    effectiveLimit ⟨some 50, some 10⟩ ⟨some ⟨some 5, none⟩, .absent⟩
      = some (clampSpec ⟨some 50, some 10⟩ (some 5)) ∧
    0 ≤ clampSpec ⟨some 50, some 10⟩ (some 5) ∧
    effectiveLimit ⟨some 50, some 10⟩ ⟨some ⟨some 999, none⟩, .absent⟩ = some 50 ∧
    effectiveLimit ⟨some 50, some 10⟩ ⟨some ⟨none, none⟩, .absent⟩ = some 10 :=
  C1_effective_limit ⟨some 50, some 10⟩ (some 5) none (by decide)
    (fun x hx => by injection hx with h; omega)
    (fun x hx => by injection hx with h; omega)
    (fun x hx => by injection hx with h; omega)

theorem returnMap_falsy_ne_notFound (cfg : Cfg) (exec : ExecResult) (msg : Option String)
    (ra pg : Bool) (m : String) (hmt : DbService.msgTruthy msg = false) :
    DbService._returnMap cfg exec msg ra pg ≠ .notFound m := by
  cases exec with
  | error e =>
    cases e with
    | arango n => simp [DbService._returnMap, hmt]
    | other c => simp [DbService._returnMap]
  | ok p =>
    obtain ⟨rows, fc⟩ := p
    simp only [DbService._returnMap, hmt, Bool.and_false]
    split
    · simp_all
    · split
      · simp
      · split
        · simp
        · split <;> simp

theorem returnMap_cons_ne_notFound (cfg : Cfg) (r : Doc) (t : List Doc) (fc : Nat)
    (msg : Option String) (ra pg : Bool) (m : String) :
    DbService._returnMap cfg (.ok (r :: t, fc)) msg ra pg ≠ .notFound m := by
  simp only [DbService._returnMap, List.length_map, List.length_cons]
  split
  · simp_all
  · split
    · simp
    · split
      · simp
      · split <;> simp

theorem noRecordMsg_ne_empty (id : String) : noRecordMsg id ≠ "" := by
  intro h
  have hl := congrArg String.length h
  rw [noRecordMsg, String.length_append, String.length_append, String.length_append] at hl
  have h1 : ("No record found for id " : String).length = 23 := rfl
  have h2 : quoteChar.length = 1 := rfl
  have h3 : ("" : String).length = 0 := rfl
  rw [h1, h2, h3] at hl
  omega

theorem returnMap_notFound_iff (cfg : Cfg) (exec : ExecResult) (msg : Option String)
    (ra pg : Bool) (m : String) :
    DbService._returnMap cfg exec msg ra pg = .notFound m ↔
      (msg = some m ∧ m ≠ "" ∧ (exec = .error (.arango 1202) ∨ ∃ n, exec = .ok ([], n))) := by
  cases exec with
  | error e =>
    cases e with
    | arango n =>
      cases msg with
      | none => simp [DbService._returnMap, DbService.msgTruthy]
      | some s =>
        by_cases h1202 : n = 1202
        · subst h1202
          by_cases hs : s = ""
          · subst hs
            constructor
            · intro h
              exact absurd h
                (returnMap_falsy_ne_notFound cfg (.error (.arango 1202)) (some "") ra pg m rfl)
            · rintro ⟨h1, h2, -⟩
              injection h1 with h1
              exact (h2 h1.symm).elim
          · have hbe : (s == "") = false := beq_eq_false_iff_ne.mpr hs
            have hL : DbService._returnMap cfg (.error (.arango 1202)) (some s) ra pg
                = .notFound s := by
              simp [DbService._returnMap, DbService.msgTruthy, hbe]
            rw [hL]
            constructor
            · intro h
              injection h with h
              subst h
              exact ⟨rfl, hs, Or.inl rfl⟩
            · rintro ⟨h1, -, -⟩
              injection h1 with h1
              rw [h1]
        · have hbe : (n == 1202) = false :=
            beq_eq_false_iff_ne.mpr h1202
          simp [DbService._returnMap, hbe, h1202]
    | other c => simp [DbService._returnMap]
  | ok p =>
    obtain ⟨rows, fc⟩ := p
    cases rows with
    | nil =>
      cases msg with
      | none => cases pg <;> cases ra <;> simp [DbService._returnMap, DbService.msgTruthy]
      | some s =>
        by_cases hs : s = ""
        · subst hs
          constructor
          · intro h
            exact absurd h
              (returnMap_falsy_ne_notFound cfg (.ok ([], fc)) (some "") ra pg m rfl)
          · rintro ⟨h1, h2, -⟩
            injection h1 with h1
            exact (h2 h1.symm).elim
        · have hbe : (s == "") = false := beq_eq_false_iff_ne.mpr hs
          have hL : DbService._returnMap cfg (.ok ([], fc)) (some s) ra pg = .notFound s := by
            simp [DbService._returnMap, DbService.msgTruthy, hbe]
          rw [hL]
          constructor
          · intro h
            injection h with h
            subst h
            exact ⟨rfl, hs, Or.inr ⟨fc, rfl⟩⟩
          · rintro ⟨h1, -, -⟩
            injection h1 with h1
            rw [h1]
    | cons r t =>
      constructor
      · intro h
        exact absurd h (returnMap_cons_ne_notFound cfg r t fc msg ra pg m)
      · rintro ⟨h1, h2, h3 | ⟨k, h3⟩⟩ <;> simp at h3

/-- C2: counterexample — the source guards Not-Found with the JS truthiness of
the message (`... && errorMessage`), so a supplied empty-string message behaves
as no message: an execution failure with code 1202 is rethrown unchanged
instead of raising Not-Found, refuting the claim for that supplied message. -/
theorem C2_counterexample :
    DbService._returnMap ⟨"_id", false⟩ (.error (.arango 1202)) (some "") true false
      = .dbError (.arango 1202) ∧
    MapResult.dbError (.arango 1202) ≠ .notFound "" := by decide

/-- C2 (amended): `_returnMap` yields Not-Found carrying message `m` exactly
when `m` was the supplied not-found message, `m` is non-empty (the source
guards with the JS truthiness of the message), and either execution failed with
ArangoError 1202 or the result set is empty; any other execution failure —
including a 1202 with an absent or empty message — propagates unchanged; and
`get` of an id matching no document yields Not-Found whose message contains the
requested id. -/
theorem C2_notFound_iff (cfg : Cfg) (exec : ExecResult) (msg : Option String) (ra pg : Bool) :
    (∀ m, DbService._returnMap cfg exec msg ra pg = .notFound m ↔
      (msg = some m ∧ m ≠ "" ∧ (exec = .error (.arango 1202) ∨ ∃ n, exec = .ok ([], n)))) ∧
    (∀ e, exec = .error e → e ≠ .arango 1202 ∨ DbService.msgTruthy msg = false →
      DbService._returnMap cfg exec msg ra pg = .dbError e) ∧
    (∀ docs id, (∀ d ∈ docs, d.lookup "_key" ≠ some (.str id)) →
      DbService.get cfg docs id = .notFound (noRecordMsg id) ∧
      ∃ pre post, noRecordMsg id = pre ++ id ++ post) := by
  refine ⟨returnMap_notFound_iff cfg exec msg ra pg, ?_, ?_⟩
  · intro e he hor
    subst he
    cases e with
    | arango n =>
      rcases hor with h | h
      · have hbe : (n == 1202) = false :=
          beq_eq_false_iff_ne.mpr (fun hc => h (by rw [hc]))
        simp [DbService._returnMap, hbe]
      · simp [DbService._returnMap, h]
    | other c => simp [DbService._returnMap]
  · intro docs id hnone
    have hfilter : docs.filter (fun d => d.lookup "_key" == some (JValue.str id)) = [] := by
      rw [List.filter_eq_nil_iff]
      intro d hd
      simpa using hnone d hd
    have hbe : (noRecordMsg id == "") = false :=
      beq_eq_false_iff_ne.mpr (noRecordMsg_ne_empty id)
    refine ⟨?_, "No record found for id " ++ quoteChar, quoteChar, rfl⟩
    simp [DbService.get, runGetQuery, hfilter, DbService._returnMap, DbService.msgTruthy, hbe]

/-- C2 witness: a non-1202 failure propagates unchanged through `_returnMap`
even when a truthy not-found message was supplied. -/
theorem C2_witness :
    DbService._returnMap ⟨"_id", false⟩ (.error (.other 7)) (some "boom") true false
      = .dbError (.other 7) :=
  (C2_notFound_iff ⟨"_id", false⟩ (.error (.other 7)) (some "boom") true false).2.1
    (.other 7) rfl (Or.inl (by decide))

theorem lookup_omitKeys (ks : List String) (d : Doc) (k : String) :
    (omitKeys ks d).lookup k = if k ∈ ks then none else d.lookup k := by
  induction d with
  | nil => simp [omitKeys]
  | cons kv t ih =>
    obtain ⟨a, b⟩ := kv
    by_cases hc : a ∈ ks
    · have hd : omitKeys ks ((a, b) :: t) = omitKeys ks t := by
        simp [omitKeys, List.filter_cons, hc]
      rw [hd, ih]
      by_cases hk : k ∈ ks
      · simp [hk]
      · have hne : (k == a) = false :=
          beq_eq_false_iff_ne.mpr (fun h => hk (by rw [h]; exact hc))
        simp [hk, List.lookup, hne]
    · have hd : omitKeys ks ((a, b) :: t) = (a, b) :: omitKeys ks t := by
        simp [omitKeys, List.filter_cons, hc]
      rw [hd]
      by_cases hak : (k == a) = true
      · have hka : k = a := by simpa using hak
        subst hka
        simp [List.lookup, hc]
      · have hf : (k == a) = false := Bool.eq_false_iff.mpr hak
        simp [List.lookup, hf, ih]

/-- C3: counterexample — with external identifier field `myid`, the record
`{myid: ""}` explicitly supplies a value there, yet the round-trip replaces it
with the generated uuid (here `"F"`), because the source treats any falsy
supplied value as absent. -/
theorem C3_counterexample :
    ([("myid", JValue.str "")] : Doc).lookup "myid" = some (JValue.str "") ∧
    (DbService.fixKeyReturn ⟨"myid", false⟩
        (DbService.fixKeySendItem ⟨"myid", false⟩ "F" [("myid", JValue.str "")])).lookup "myid"
      = some (JValue.str "F") ∧
    JValue.str "F" ≠ JValue.str "" := by decide

/-- C3 (amended): applying `fixKeyReturn` after `fixKeySend` preserves every
field of the record other than the external identifier field and the internal
fields `_id`, `_rev`, `_key`, and restores the exact value at the external
identifier field whenever the record supplied a truthy value there. -/
theorem C3_roundtrip (cfg : Cfg) (fresh : String) (r : Doc) (v : JValue)
    (hv : r.lookup cfg.idField = some v) (ht : v.truthy = true) :
    (DbService.fixKeyReturn cfg (DbService.fixKeySendItem cfg fresh r)).lookup cfg.idField
      = some v ∧
    ∀ k, k ≠ cfg.idField → k ≠ "_id" → k ≠ "_rev" → k ≠ "_key" →
      (DbService.fixKeyReturn cfg (DbService.fixKeySendItem cfg fresh r)).lookup k
        = r.lookup k := by
  have hsend : DbService.fixKeySendItem cfg fresh r
      = ("_key", v) :: omitKeys ["_id", "_rev", "_key"] r := by
    simp [DbService.fixKeySendItem, hv, ht]
  have hret : DbService.fixKeyReturn cfg (DbService.fixKeySendItem cfg fresh r)
      = (cfg.idField, v)
        :: omitKeys ([cfg.idField, "_key"] ++ (if cfg.expandData then [] else ["_id", "_rev"]))
             (("_key", v) :: omitKeys ["_id", "_rev", "_key"] r) := by
    rw [hsend]
    simp [DbService.fixKeyReturn, List.lookup]
  constructor
  · rw [hret]
    simp [List.lookup]
  · intro k hk1 hk2 hk3 hk4
    have hki : (k == cfg.idField) = false := beq_eq_false_iff_ne.mpr hk1
    have hkk : (k == "_key") = false := beq_eq_false_iff_ne.mpr hk4
    have h3 : k ∉ (["_id", "_rev", "_key"] : List String) := by simp [hk2, hk3, hk4]
    rw [hret]
    cases hE : cfg.expandData with
    | true => simp [List.lookup, hki, lookup_omitKeys, hkk, h3, hk1, hk2, hk3, hk4]
    | false => simp [List.lookup, hki, lookup_omitKeys, hkk, h3, hk1, hk2, hk3, hk4]

/-- C3 witness: the amended round-trip theorem applied to the record
`{myid: "a", x: 1}` with external identifier field `myid`. -/
theorem C3_witness :
    (DbService.fixKeyReturn ⟨"myid", false⟩
        (DbService.fixKeySendItem ⟨"myid", false⟩ "F"
          [("myid", JValue.str "a"), ("x", JValue.num 1)])).lookup "myid"
      = some (JValue.str "a") ∧
    (DbService.fixKeyReturn ⟨"myid", false⟩
        (DbService.fixKeySendItem ⟨"myid", false⟩ "F"
          [("myid", JValue.str "a"), ("x", JValue.num 1)])).lookup "x"
      = some (JValue.num 1) :=
  ⟨(C3_roundtrip ⟨"myid", false⟩ "F" [("myid", JValue.str "a"), ("x", JValue.num 1)]
      (JValue.str "a") (by decide) (by decide)).1,
   (C3_roundtrip ⟨"myid", false⟩ "F" [("myid", JValue.str "a"), ("x", JValue.num 1)]
      (JValue.str "a") (by decide) (by decide)).2 "x"
      (by decide) (by decide) (by decide) (by decide)⟩

/-- C4: counterexample — with pagination inactive, collapsing enabled and no
not-found message, an empty result yields `result[0]`, i.e. JS `undefined`, and
not the bare empty sequence the claim requires for zero elements. -/
theorem C4_counterexample :
    DbService._returnMap ⟨"_id", false⟩ (.ok ([], 0)) none true false = .ok .undef ∧
    MapResult.ok .undef ≠ .ok (.list []) := by decide

/-- C4 (amended): with pagination inactive and no not-found message,
`_returnMap` returns the bare mapped sequence when the result has more than one
element or collapsing is disabled; with collapsing enabled it returns the
single element unwrapped when there is exactly one result, and JS `undefined`
when there are none. -/
theorem C4_collapse (cfg : Cfg) (rows : List Doc) (n : Nat) (ra : Bool) :
    (rows.length > 1 ∨ ra = false →
      DbService._returnMap cfg (.ok (rows, n)) none ra false
        = .ok (.list (rows.map (DbService.fixKeyReturn cfg)))) ∧
    (ra = true →
      DbService._returnMap cfg (.ok ([], n)) none ra false = .ok .undef) ∧
    (∀ r, rows = [r] → ra = true →
      DbService._returnMap cfg (.ok (rows, n)) none ra false
        = .ok (.single (DbService.fixKeyReturn cfg r))) := by
  refine ⟨?_, ?_, ?_⟩
  · intro h
    rcases h with h | h
    · simp [DbService._returnMap, DbService.msgTruthy, h]
    · subst h
      simp [DbService._returnMap, DbService.msgTruthy]
  · intro h
    subst h
    simp [DbService._returnMap, DbService.msgTruthy]
  · intro r hr h
    subst hr
    subst h
    simp [DbService._returnMap, DbService.msgTruthy]

/-- C4 witness: the amended theorem applied to a two-row result with collapsing
enabled. -/
theorem C4_witness :
    DbService._returnMap ⟨"_id", false⟩
      (.ok ([[("_key", JValue.str "a")], [("_key", JValue.str "b")]], 0)) none true false
      = .ok (.list [[("_id", JValue.str "a")], [("_id", JValue.str "b")]]) :=
  ((C4_collapse ⟨"_id", false⟩ [[("_key", JValue.str "a")], [("_key", JValue.str "b")]] 0
      true).1 (Or.inl (by decide))).trans (by decide)

theorem returnMap_paged (cfg : Cfg) (rows : List Doc) (fc : Nat) (ra : Bool) :
    DbService._returnMap cfg (.ok (rows, fc)) none ra true
      = .ok (.paged fc (rows.map (DbService.fixKeyReturn cfg))) := by
  simp [DbService._returnMap, DbService.msgTruthy]

/-- C5: counterexample — the policy `{default: 0}` counts as configured
pagination, but the injected effective limit 0 emits no limit clause, so `find`
returns an envelope whose `limit` is 0 while `data` still holds one row:
`data` has more than `limit` elements. -/
theorem C5_counterexample :
    DbService.find ⟨"_id", false⟩ ⟨none, some 0⟩ (fun _ => true) ⟨none, .absent⟩
      [[("_key", JValue.str "a")]]
      = .envelope 1 0 0 [[("_id", JValue.str "a")]] ∧
    ¬(([[("_id", JValue.str "a")]] : List Doc).length ≤ (0 : Int).toNat) := by
  exact ⟨by decide, by decide⟩

/-- C5 (amended): whenever a pagination policy is configured, `find` returns a
`{total, limit, skip, data}` envelope whose `total` equals the full filtered
count — independent of the requested limit and skip — and whose `data` holds at
most `limit` elements whenever the `limit` of the envelope is positive (a zero
effective limit emits no limit clause and therefore no truncation). -/
theorem C5_envelope (cfg : Cfg) (svc : Paginate) (pred : Doc → Bool) (params : Params)
    (docs : List Doc) (h : svc.isEmpty = false) :
    ∃ t l s d, DbService.find cfg svc pred params docs = .envelope t l s d ∧
      t = (docs.filter pred).length ∧
      (0 < l → d.length ≤ l.toNat) := by
  have hq : ∀ q : Query, ∃ t l s d,
      FindOutcome.envelope ((docs.filter pred).length) (jsOrI q.limit 0) (jsOrI q.skip 0)
          ((findRows pred docs q.limit q.skip).map (DbService.fixKeyReturn cfg))
        = .envelope t l s d ∧
      t = (docs.filter pred).length ∧
      (0 < l → d.length ≤ l.toNat) := by
    intro q
    refine ⟨_, _, _, _, rfl, rfl, ?_⟩
    intro hl
    cases hqlim : q.limit with
    | none => simp [jsOrI, hqlim] at hl
    | some l =>
      by_cases hl0 : l = 0
      · simp [jsOrI, hqlim, hl0] at hl
      · have hbe : (l == 0) = false := beq_eq_false_iff_ne.mpr hl0
        simp only [jsOrI, hbe, Bool.false_eq_true, if_false] at hl ⊢
        simp [findRows, hbe, List.length_take]
  have hfind : DbService.find cfg svc pred params docs
      = .envelope ((docs.filter pred).length)
          (jsOrI ((DbService._injectPagination svc params).query.getD ⟨none, none⟩).limit 0)
          (jsOrI ((DbService._injectPagination svc params).query.getD ⟨none, none⟩).skip 0)
          ((findRows pred docs ((DbService._injectPagination svc params).query.getD ⟨none, none⟩).limit
              ((DbService._injectPagination svc params).query.getD ⟨none, none⟩).skip).map
            (DbService.fixKeyReturn cfg)) := by
    rw [DbService.find]
    simp only [h, Bool.not_false, runFindQuery, returnMap_paged, Bool.false_eq_true, if_false]
  rw [hfind]
  exact hq ((DbService._injectPagination svc params).query.getD ⟨none, none⟩)

/-- C5 witness: the amended theorem applied at policy `{default: 10, max: 50}`
on the empty collection. -/
theorem C5_witness :
    ∃ t l s d, DbService.find ⟨"_id", false⟩ ⟨some 50, some 10⟩ (fun _ => true)
        ⟨none, .absent⟩ ([] : List Doc) = .envelope t l s d ∧
      t = (([] : List Doc).filter (fun _ => true)).length ∧
      (0 < l → d.length ≤ l.toNat) :=
  C5_envelope ⟨"_id", false⟩ ⟨some 50, some 10⟩ (fun _ => true) ⟨none, .absent⟩ [] (by decide)

/-- C6: the service policy `{default: 10, max: 50}` is configured and the call
sets `paginate: false`, yet `find` still returns the `{total, limit, skip,
data}` envelope over all matching rows — the envelope decision in the source
reads only `!_isEmpty(this._paginate)` and ignores the per-call override,
contradicting the claim that such a call produces a bare sequence. -/
theorem C6_paginate_false_ignored :
    DbService.find ⟨"_id", false⟩ ⟨some 50, some 10⟩ (fun _ => true)
      ⟨some ⟨none, none⟩, .off⟩ [[("_key", JValue.str "a")], [("_key", JValue.str "b")]]
      = .envelope 2 0 0 [[("_id", JValue.str "a")], [("_id", JValue.str "b")]] := by decide

/-- C7: counterexample — with configured external identifier field `myid`,
`fixKeySend` copies the supplied value into `_key` but leaves `myid` inside the
payload body: the external identifier field is not stripped. -/
theorem C7_counterexample :
    DbService.fixKeySendItem ⟨"myid", false⟩ "F" [("myid", JValue.str "v"), ("a", JValue.num 1)]
      = [("_key", JValue.str "v"), ("myid", JValue.str "v"), ("a", JValue.num 1)] ∧
    (DbService.fixKeySendItem ⟨"myid", false⟩ "F"
        [("myid", JValue.str "v"), ("a", JValue.num 1)]).lookup "myid" ≠ none := by decide

/-- C7 (amended): for every record, `fixKeySend` sets the internal key field
`_key` to the value at the configured external identifier field — or to the
freshly generated uuid when that value is absent or falsy — and strips exactly
the internal fields `_id`, `_rev`, `_key` from the payload body, so the
external identifier field itself is stripped precisely when it is one of those
names (as with the default `_id`); every other field is preserved. -/
theorem C7_fixKeySend (cfg : Cfg) (fresh : String) (item : Doc) :
    (DbService.fixKeySendItem cfg fresh item).lookup "_key"
      = some (match item.lookup cfg.idField with
          | some v => if v.truthy then v else .str fresh
          | none => .str fresh) ∧
    (DbService.fixKeySendItem cfg fresh item).lookup "_id" = none ∧
    (DbService.fixKeySendItem cfg fresh item).lookup "_rev" = none ∧
    ∀ k, k ≠ "_id" → k ≠ "_rev" → k ≠ "_key" →
      (DbService.fixKeySendItem cfg fresh item).lookup k = item.lookup k := by
  refine ⟨?_, ?_, ?_, ?_⟩
  · simp [DbService.fixKeySendItem, List.lookup]
  · simp [DbService.fixKeySendItem, List.lookup, lookup_omitKeys]
  · simp [DbService.fixKeySendItem, List.lookup, lookup_omitKeys]
  · intro k h1 h2 h3
    have hkk : (k == "_key") = false := beq_eq_false_iff_ne.mpr h3
    have hmem : k ∉ (["_id", "_rev", "_key"] : List String) := by simp [h1, h2, h3]
    simp [DbService.fixKeySendItem, List.lookup, hkk, lookup_omitKeys, hmem]

/-- C7 witness: the amended theorem applied with the default identifier field
`_id` to the record `{x: 2}`. -/
theorem C7_witness :
    (DbService.fixKeySendItem ⟨"_id", false⟩ "F" [("x", JValue.num 2)]).lookup "_id" = none ∧
    (DbService.fixKeySendItem ⟨"_id", false⟩ "F" [("x", JValue.num 2)]).lookup "x"
      = some (JValue.num 2) :=
  ⟨(C7_fixKeySend ⟨"_id", false⟩ "F" [("x", JValue.num 2)]).2.1,
   (C7_fixKeySend ⟨"_id", false⟩ "F" [("x", JValue.num 2)]).2.2.2 "x"
     (by decide) (by decide) (by decide)⟩

/-- C8: counterexample — the source condition `id && ...` (line 441, with the
comment about eliminating null or empty clauses) treats the falsy single id
`""` as no id at all, so `remove` with that supplied id runs the filter branch:
with an all-matching ambient filter it deletes the whole collection instead of
targeting only documents keyed by the supplied id, refuting the claim that
supplied ids are targeted exactly. -/
theorem C8_counterexample :
    DbService.remove ⟨"_id", false⟩ (some (.inl "")) (fun _ => true)
      [[("_key", JValue.str "a")]]
      = (.ok (.single [("_id", JValue.str "a")]), []) ∧
    ([] : List Doc) ≠ [[("_key", JValue.str "a")]] := by decide

/-- C8 (amended): `remove` with one or more truthy ids targets exactly the
listed documents; with no id — null, a falsy single id such as the empty
string, or an empty array — it deletes every row matching the ambient filter;
its result is never a Not-Found failure; and removing a non-empty id matching
no document leaves the collection intact and returns the collapsed empty (JS
`undefined`) result. -/
theorem C8_remove (cfg : Cfg) (idArg : IdArg) (pred : Doc → Bool) (docs : List Doc) :
    (∀ ids, removeIds idArg = some ids →
      (DbService.remove cfg idArg pred docs).2
        = docs.filter (fun d => !(keyMatches ids d))) ∧
    (removeIds idArg = none →
      (DbService.remove cfg idArg pred docs).2 = docs.filter (fun d => !(pred d))) ∧
    (∀ m, (DbService.remove cfg idArg pred docs).1 ≠ .notFound m) ∧
    (∀ s, idArg = some (.inl s) → s ≠ "" →
      (∀ d ∈ docs, d.lookup "_key" ≠ some (.str s)) →
      DbService.remove cfg idArg pred docs = (.ok .undef, docs)) := by
  refine ⟨?_, ?_, ?_, ?_⟩
  · intro ids hids
    simp [DbService.remove, hids, runRemoveByIds]
  · intro hids
    simp [DbService.remove, hids, runRemoveByFilter]
  · intro m
    cases hids : removeIds idArg with
    | some ids =>
      simp only [DbService.remove, hids]
      exact returnMap_falsy_ne_notFound cfg _ none true false m rfl
    | none =>
      simp only [DbService.remove, hids]
      exact returnMap_falsy_ne_notFound cfg _ none true false m rfl
  · intro s hs hsne hnone
    subst hs
    have hsbe : (s == "") = false := beq_eq_false_iff_ne.mpr hsne
    have hm : ∀ d ∈ docs, keyMatches [s] d = false := by
      intro d hd
      unfold keyMatches
      cases hk : d.lookup "_key" with
      | none => rfl
      | some v =>
        cases v with
        | str t =>
          have hts : t ≠ s := fun hts => hnone d hd (by rw [hk, hts])
          simp [hts]
        | num m => rfl
        | bool b => rfl
        | null => rfl
        | undef => rfl
    have hfilter : docs.filter (keyMatches [s]) = [] := by
      rw [List.filter_eq_nil_iff]
      intro d hd
      simp [hm d hd]
    have hfilter2 : docs.filter (fun d => !(keyMatches [s] d)) = docs := by
      rw [List.filter_eq_self]
      intro d hd
      simp [hm d hd]
    simp [DbService.remove, removeIds, hsbe, runRemoveByIds, hfilter, hfilter2,
      DbService._returnMap, DbService.msgTruthy]

/-- C8 witness: removing the non-existent (truthy) id `z` from a one-document
collection returns `undefined` and deletes nothing. -/
theorem C8_witness :
    DbService.remove ⟨"_id", false⟩ (some (.inl "z")) (fun _ => false)
      [[("_key", JValue.str "a")]]
      = (.ok .undef, [[("_key", JValue.str "a")]]) :=
  (C8_remove ⟨"_id", false⟩ (some (.inl "z")) (fun _ => false)
    [[("_key", JValue.str "a")]]).2.2.2 "z" rfl (by decide) (by decide)

/-- C9: `fixKeyReturn` always sets the external identifier field — the head of
its output — to the `_key` value of the input; the body after that injected field
never contains `_key`, whatever the `expandData` option; and whenever the
configured identifier field is not itself named `_key`, the whole output has no
`_key` entry at all. -/
theorem C9_fixKeyReturn (cfg : Cfg) (item : Doc) :
    (DbService.fixKeyReturn cfg item).lookup cfg.idField
      = some ((item.lookup "_key").getD .undef) ∧
    (DbService.fixKeyReturn cfg item).tail.lookup "_key" = none ∧
    (cfg.idField ≠ "_key" → (DbService.fixKeyReturn cfg item).lookup "_key" = none) := by
  have htail : (DbService.fixKeyReturn cfg item).tail
      = omitKeys ([cfg.idField, "_key"] ++ (if cfg.expandData then [] else ["_id", "_rev"]))
          item := by
    simp [DbService.fixKeyReturn]
  refine ⟨?_, ?_, ?_⟩
  · simp [DbService.fixKeyReturn, List.lookup]
  · rw [htail, lookup_omitKeys]
    simp
  · intro hne
    have hkk : ("_key" == cfg.idField) = false := beq_eq_false_iff_ne.mpr (fun hk => hne hk.symm)
    simp [DbService.fixKeyReturn, List.lookup, hkk, lookup_omitKeys]

/-- C9 witness: with `expandData` enabled and identifier field `_id`, the
mapped record carries `_id = "k"` and no `_key` entry. -/
theorem C9_witness :
    (DbService.fixKeyReturn ⟨"_id", true⟩
        [("_key", JValue.str "k"), ("_rev", JValue.str "r")]).lookup "_id"
      = some (JValue.str "k") ∧
    (DbService.fixKeyReturn ⟨"_id", true⟩
        [("_key", JValue.str "k"), ("_rev", JValue.str "r")]).lookup "_key" = none := by
  refine ⟨?_, (C9_fixKeyReturn ⟨"_id", true⟩
    [("_key", JValue.str "k"), ("_rev", JValue.str "r")]).2.2 (by decide)⟩
  have h9 := (C9_fixKeyReturn ⟨"_id", true⟩
    [("_key", JValue.str "k"), ("_rev", JValue.str "r")]).1
  simpa using h9

/-- C10: `fixKeySend` always yields an array: a single record becomes the
one-element array of its transform (keyed by the first fresh uuid), the empty
array input comes back as the empty array unchanged, and in general the output
has exactly one transformed record per input record. -/
theorem C10_fixKeySend_array (cfg : Cfg) (fresh : Nat → String) (d : Doc) (ds : List Doc) :
    DbService.fixKeySend cfg fresh (.inl d) = [DbService.fixKeySendItem cfg (fresh 0) d] ∧
    DbService.fixKeySend cfg fresh (.inr []) = [] ∧
    (DbService.fixKeySend cfg fresh (.inr ds)).length = ds.length := by
  refine ⟨rfl, rfl, ?_⟩
  cases ds with
  | nil => rfl
  | cons a t => simp [DbService.fixKeySend]

